import Mathlib

/-!
Verification development for the ponder-artifacts metadata cache.
Strings of the JavaScript source are modelled as lists of characters
(`Str`), fallible operations return `Option`, and external collaborators
(the chain client, the network, the store write) are explicit oracle
parameters.  Definitions in the first half of the file are direct
translations of the source files `src/uri.ts`, `src/service.ts`,
`src/routes.ts`; theorems about them follow.
-/

set_option maxRecDepth 8000

/-- JavaScript strings, modelled as lists of characters. -/
abbrev Str := List Char

/-- Per-character lower-casing, modelling `String.prototype.toLowerCase`
on the ASCII contract addresses this code handles. -/
def toLower (s : Str) : Str := s.map Char.toLower

/-- JavaScript `a || b` on an optional string: `null`/`undefined` and the
empty string are falsy and select the default. -/
def jsOr (a : Option Str) (d : Str) : Str :=
  match a with
  | none => d
  | some s => if s = [] then d else s

/-- `s.startsWith(p)`, i.e. `hasPfx p s`: the pattern is matched first so
the test reduces as soon as a character differs. -/
def hasPfx (p s : Str) : Bool :=
  match p with
  | [] => true
  | pc :: pr =>
    match s with
    | [] => false
    | sc :: sr => pc == sc && hasPfx pr sr

/-- The JavaScript falsiness test for a string: only `""` is falsy. -/
def isEmptyStr : Str → Bool
  | [] => true
  | _ :: _ => false

/-- JavaScript `s.replace(pat, repl)` with a string pattern: replaces the
first occurrence only (the replacement strings used by the source contain
no `$` patterns). -/
def replaceFirst : Str → Str → Str → Str
  | [], pat, repl => if isEmptyStr pat then repl else []
  | c :: rest, pat, repl =>
    if hasPfx pat (c :: rest) then repl ++ (c :: rest).drop pat.length
    else c :: replaceFirst rest pat repl

/-- JavaScript `s.split(sep)` for a one-character separator. -/
def jsSplit (sep : Char) : Str → List Str
  | [] => [[]]
  | c :: rest =>
    if c = sep then [] :: jsSplit sep rest
    else
      match jsSplit sep rest with
      | [] => [[c]]
      | p :: ps => (c :: p) :: ps

/-- The options record taken by `resolveUri` / `fetchJson` in `src/uri.ts`. -/
structure ResolveOpts where
  ipfsGateway : Option Str
  arweaveGateway : Option Str

def DEFAULT_IPFS_GATEWAY : Str := "https://ipfs.io/ipfs/".data

def DEFAULT_ARWEAVE_GATEWAY : Str := "https://arweave.net/".data

def dataPfx : Str := "data:".data

def ipfsPfx : Str := "ipfs://".data

def arPfx : Str := "ar://".data

def qmPfx : Str := "Qm".data

def bafPfx : Str := "baf".data

/-- `resolveUri` from `src/uri.ts`.  The argument is optional because the
source accepts `string | null | undefined`; the empty string is falsy in
the `if (!uri)` guard. -/
def resolveUri (uri : Option Str) (options : ResolveOpts) : Str :=
  match uri with
  | none => []
  | some u =>
    if isEmptyStr u then []
    else
      let ipfs := jsOr options.ipfsGateway DEFAULT_IPFS_GATEWAY
      let ar := jsOr options.arweaveGateway DEFAULT_ARWEAVE_GATEWAY
      if hasPfx dataPfx u then u
      else if hasPfx ipfsPfx u then ipfs ++ replaceFirst u ipfsPfx []
      else if hasPfx arPfx u then ar ++ replaceFirst u arPfx []
      else if hasPfx qmPfx u then ipfs ++ u
      else if hasPfx bafPfx u then ipfs ++ u
      else u

/-- Structured data as produced by `JSON.parse`.  Number literals are kept
verbatim (the source never does arithmetic on parsed numbers). -/
inductive Json where
  | null
  | bool (b : Bool)
  | num (lit : Str)
  | str (s : Str)
  | arr (elems : List Json)
  | obj (fields : List (Str × Json))

def lbrace : Char := Char.ofNat 123

def rbrace : Char := Char.ofNat 125

def isJsonWs (c : Char) : Bool :=
  c = ' ' || c = '\t' || c = '\n' || c = '\r'

def skipWs : Str → Str
  | [] => []
  | c :: rest => if isJsonWs c then skipWs rest else c :: rest

def hexVal (c : Char) : Option Nat :=
  if '0' ≤ c ∧ c ≤ '9' then some (c.toNat - 48)
  else if 'a' ≤ c ∧ c ≤ 'f' then some (c.toNat - 87)
  else if 'A' ≤ c ∧ c ≤ 'F' then some (c.toNat - 55)
  else none

/-- Body of a JSON string literal, after the opening quote.  Returns the
decoded contents and the remaining input after the closing quote.
`\uXXXX` escapes follow `JSON.parse`: surrogate pairs combine, and a lone
surrogate (unrepresentable in a Lean `Char`) decodes to U+FFFD. -/
def parseStringBody : Str → Option (Str × Str)
  | [] => none
  | c :: rest =>
    if c = '"' then some ([], rest)
    else if c = '\\' then
      match rest with
      | [] => none
      | e :: rest2 =>
        if e = '"' then (parseStringBody rest2).map (fun p => ('"' :: p.1, p.2))
        else if e = '\\' then (parseStringBody rest2).map (fun p => ('\\' :: p.1, p.2))
        else if e = '/' then (parseStringBody rest2).map (fun p => ('/' :: p.1, p.2))
        else if e = 'b' then (parseStringBody rest2).map (fun p => ('\x08' :: p.1, p.2))
        else if e = 'f' then (parseStringBody rest2).map (fun p => ('\x0c' :: p.1, p.2))
        else if e = 'n' then (parseStringBody rest2).map (fun p => ('\n' :: p.1, p.2))
        else if e = 'r' then (parseStringBody rest2).map (fun p => ('\r' :: p.1, p.2))
        else if e = 't' then (parseStringBody rest2).map (fun p => ('\t' :: p.1, p.2))
        else if e = 'u' then
          match rest2 with
          | h1 :: h2 :: h3 :: h4 :: rest3 =>
            match hexVal h1, hexVal h2, hexVal h3, hexVal h4 with
            | some a, some b, some cc, some d =>
              let u := ((a * 16 + b) * 16 + cc) * 16 + d
              if 0xD800 ≤ u ∧ u ≤ 0xDBFF then
                let lone := (parseStringBody rest3).map (fun p => ('�' :: p.1, p.2))
                match rest3 with
                | '\\' :: 'u' :: g1 :: g2 :: g3 :: g4 :: rest4 =>
                  match hexVal g1, hexVal g2, hexVal g3, hexVal g4 with
                  | some a2, some b2, some c2, some d2 =>
                    let v := ((a2 * 16 + b2) * 16 + c2) * 16 + d2
                    if 0xDC00 ≤ v ∧ v ≤ 0xDFFF then
                      let cp := 0x10000 + (u - 0xD800) * 0x400 + (v - 0xDC00)
                      (parseStringBody rest4).map (fun p => (Char.ofNat cp :: p.1, p.2))
                    else lone
                  | _, _, _, _ => lone
                | _ => lone
              else if 0xDC00 ≤ u ∧ u ≤ 0xDFFF then
                (parseStringBody rest3).map (fun p => ('�' :: p.1, p.2))
              else (parseStringBody rest3).map (fun p => (Char.ofNat u :: p.1, p.2))
            | _, _, _, _ => none
          | _ => none
        else none
    else if c.toNat < 0x20 then none
    else (parseStringBody rest).map (fun p => (c :: p.1, p.2))

/-- A JSON number literal: `-? (0 | [1-9][0-9]*) (. [0-9]+)? ([eE][+-]?[0-9]+)?`.
Returns the literal verbatim plus the remaining input. -/
def parseNumberLit (s : Str) : Option (Str × Str) :=
  let sgn : Str × Str := match s with
    | '-' :: r => (['-'], r)
    | _ => ([], s)
  match sgn.2 with
  | [] => none
  | c :: r =>
    if c = '0' then
      let intPart : Str := ['0']
      let s2 := r
      let fr : Option (Str × Str) := match s2 with
        | '.' :: r2 =>
          let ds := r2.takeWhile Char.isDigit
          if ds = [] then none else some ('.' :: ds, r2.dropWhile Char.isDigit)
        | _ => some ([], s2)
      match fr with
      | none => none
      | some (fracPart, s3) =>
        let ex : Option (Str × Str) := match s3 with
          | 'e' :: r3 =>
            let sg : Str × Str := match r3 with
              | '+' :: r4 => (['+'], r4)
              | '-' :: r4 => (['-'], r4)
              | _ => ([], r3)
            let ds := sg.2.takeWhile Char.isDigit
            if ds = [] then none else some ('e' :: sg.1 ++ ds, sg.2.dropWhile Char.isDigit)
          | 'E' :: r3 =>
            let sg : Str × Str := match r3 with
              | '+' :: r4 => (['+'], r4)
              | '-' :: r4 => (['-'], r4)
              | _ => ([], r3)
            let ds := sg.2.takeWhile Char.isDigit
            if ds = [] then none else some ('E' :: sg.1 ++ ds, sg.2.dropWhile Char.isDigit)
          | _ => some ([], s3)
        match ex with
        | none => none
        | some (expPart, s4) => some (sgn.1 ++ intPart ++ fracPart ++ expPart, s4)
    else if c.isDigit then
      let ds := (c :: r).takeWhile Char.isDigit
      let s2 := (c :: r).dropWhile Char.isDigit
      let fr : Option (Str × Str) := match s2 with
        | '.' :: r2 =>
          let fds := r2.takeWhile Char.isDigit
          if fds = [] then none else some ('.' :: fds, r2.dropWhile Char.isDigit)
        | _ => some ([], s2)
      match fr with
      | none => none
      | some (fracPart, s3) =>
        let ex : Option (Str × Str) := match s3 with
          | 'e' :: r3 =>
            let sg : Str × Str := match r3 with
              | '+' :: r4 => (['+'], r4)
              | '-' :: r4 => (['-'], r4)
              | _ => ([], r3)
            let eds := sg.2.takeWhile Char.isDigit
            if eds = [] then none else some ('e' :: sg.1 ++ eds, sg.2.dropWhile Char.isDigit)
          | 'E' :: r3 =>
            let sg : Str × Str := match r3 with
              | '+' :: r4 => (['+'], r4)
              | '-' :: r4 => (['-'], r4)
              | _ => ([], r3)
            let eds := sg.2.takeWhile Char.isDigit
            if eds = [] then none else some ('E' :: sg.1 ++ eds, sg.2.dropWhile Char.isDigit)
          | _ => some ([], s3)
        match ex with
        | none => none
        | some (expPart, s4) => some (sgn.1 ++ ds ++ fracPart ++ expPart, s4)
    else none

mutual

/-- Recursive-descent JSON value parser (`JSON.parse` grammar), with a fuel
parameter for termination.  Expects leading whitespace already skipped;
returns the value and the unconsumed input. -/
def parseValue : Nat → Str → Option (Json × Str)
  | 0, _ => none
  | fuel + 1, s =>
    match s with
    | [] => none
    | c :: rest =>
      if c = '"' then (parseStringBody rest).map (fun p => (.str p.1, p.2))
      else if c = lbrace then
        match skipWs rest with
        | c2 :: rest2 =>
          if c2 = rbrace then some (.obj [], rest2)
          else (parseMembers fuel (c2 :: rest2)).map (fun p => (.obj p.1, p.2))
        | [] => none
      else if c = '[' then
        match skipWs rest with
        | c2 :: rest2 =>
          if c2 = ']' then some (.arr [], rest2)
          else (parseElems fuel (c2 :: rest2)).map (fun p => (.arr p.1, p.2))
        | [] => none
      else if c = 't' then
        match rest with
        | 'r' :: 'u' :: 'e' :: r => some (.bool true, r)
        | _ => none
      else if c = 'f' then
        match rest with
        | 'a' :: 'l' :: 's' :: 'e' :: r => some (.bool false, r)
        | _ => none
      else if c = 'n' then
        match rest with
        | 'u' :: 'l' :: 'l' :: r => some (.null, r)
        | _ => none
      else (parseNumberLit s).map (fun p => (.num p.1, p.2))

/-- One or more `"key": value` members of an object, then the closing brace. -/
def parseMembers : Nat → Str → Option (List (Str × Json) × Str)
  | 0, _ => none
  | fuel + 1, s =>
    match s with
    | '"' :: rest =>
      match parseStringBody rest with
      | none => none
      | some (key, s2) =>
        match skipWs s2 with
        | ':' :: s3 =>
          match parseValue fuel (skipWs s3) with
          | none => none
          | some (v, s4) =>
            match skipWs s4 with
            | ',' :: s5 =>
              match parseMembers fuel (skipWs s5) with
              | none => none
              | some (ms, s6) => some ((key, v) :: ms, s6)
            | c :: s5 => if c = rbrace then some ([(key, v)], s5) else none
            | [] => none
        | _ => none
    | _ => none

/-- One or more array elements, then the closing bracket. -/
def parseElems : Nat → Str → Option (List Json × Str)
  | 0, _ => none
  | fuel + 1, s =>
    match parseValue fuel s with
    | none => none
    | some (v, s2) =>
      match skipWs s2 with
      | ',' :: s3 =>
        match parseElems fuel (skipWs s3) with
        | none => none
        | some (vs, s4) => some (v :: vs, s4)
      | ']' :: s3 => some ([v], s3)
      | _ => none

end

/-- `JSON.parse`: parse one value, allow surrounding whitespace, reject
trailing input.  The fuel bound is generous for the recursion depth. -/
def jsonParse (s : Str) : Option Json :=
  match parseValue (2 * s.length + 4) (skipWs s) with
  | some (v, rest) => if skipWs rest = [] then some v else none
  | none => none

/-- Property lookup among parsed object members; JavaScript keeps the last
binding for a duplicated key. -/
def lookupLast : List (Str × Json) → Str → Option Json
  | [], _ => none
  | (k2, v) :: rest, k =>
    match lookupLast rest k with
    | some r => some r
    | none => if k2 = k then some v else none

/-- JavaScript property access `o[k]` on a parsed document: `none` models
`undefined` (missing key or non-object receiver). -/
def jsGet (j : Json) (k : Str) : Option Json :=
  match j with
  | .obj fields => lookupLast fields k
  | _ => none

/-- `x ?? null` collapsed with absence: a JSON `null` property and a
missing property both end up as `null` in the stored record. -/
def jsCoalesce (v : Option Json) : Option Json :=
  match v with
  | some .null => none
  | x => x

/-- ASCII whitespace stripped by the forgiving base64 decoder behind
`atob`. -/
def isB64Ws (c : Char) : Bool :=
  c = ' ' || c = '\t' || c = '\n' || c = '\x0c' || c = '\r'

def b64Val (c : Char) : Option Nat :=
  if 'A' ≤ c ∧ c ≤ 'Z' then some (c.toNat - 65)
  else if 'a' ≤ c ∧ c ≤ 'z' then some (c.toNat - 71)
  else if '0' ≤ c ∧ c ≤ '9' then some (c.toNat + 4)
  else if c = '+' then some 62
  else if c = '/' then some 63
  else none

/-- Strip up to two trailing `=` padding characters. -/
def b64StripPad (t : Str) : Str :=
  match t.reverse with
  | '=' :: '=' :: r => r.reverse
  | '=' :: r => r.reverse
  | _ => t

/-- Reassemble 6-bit groups into bytes; a trailing group of one character
is invalid, trailing groups of two or three yield one or two bytes. -/
def b64Chunks : List Nat → Option (List Nat)
  | [] => some []
  | [_] => none
  | [a, b] => some [a * 4 + b / 16]
  | [a, b, c] => some [a * 4 + b / 16, (b % 16) * 16 + c / 4]
  | a :: b :: c :: d :: rest =>
    (b64Chunks rest).map
      (fun bs => (a * 4 + b / 16) :: ((b % 16) * 16 + c / 4) :: ((c % 4) * 64 + d) :: bs)

/-- `atob`: forgiving base64 decode to a binary string (one character per
byte); `none` models the thrown `InvalidCharacterError`. -/
def atob (s : Str) : Option Str :=
  let t := s.filter (fun c => !isB64Ws c)
  let t2 := if t.length % 4 = 0 then b64StripPad t else t
  if t2.length % 4 = 1 then none
  else
    match t2.mapM b64Val with
    | none => none
    | some vals => (b64Chunks vals).map (fun bs => bs.map Char.ofNat)

/-- First pass of `decodeURIComponent`: each `%XX` becomes a byte, every
other character passes through; a `%` not followed by two hex digits is a
`URIError`. -/
def pctTokens : Str → Option (List (Char ⊕ Nat))
  | [] => some []
  | '%' :: h1 :: h2 :: rest =>
    match hexVal h1, hexVal h2 with
    | some a, some b => (pctTokens rest).map (fun ts => Sum.inr (a * 16 + b) :: ts)
    | _, _ => none
  | '%' :: _ => none
  | c :: rest => (pctTokens rest).map (fun ts => Sum.inl c :: ts)

/-- Second pass of `decodeURIComponent`: UTF-8-decode runs of escaped
bytes (strictly: continuation bytes must themselves come from escapes,
surrogate and out-of-range encodings are rejected). -/
def pctAssemble : List (Char ⊕ Nat) → Option Str
  | [] => some []
  | .inl c :: rest => (pctAssemble rest).map (fun s => c :: s)
  | .inr b :: rest =>
    if b < 0x80 then (pctAssemble rest).map (fun s => Char.ofNat b :: s)
    else if 0xC2 ≤ b ∧ b ≤ 0xDF then
      match rest with
      | .inr c1 :: rest2 =>
        if 0x80 ≤ c1 ∧ c1 ≤ 0xBF then
          (pctAssemble rest2).map (fun s => Char.ofNat ((b - 0xC0) * 64 + (c1 - 0x80)) :: s)
        else none
      | _ => none
    else if 0xE0 ≤ b ∧ b ≤ 0xEF then
      match rest with
      | .inr c1 :: .inr c2 :: rest2 =>
        let lo1 := if b = 0xE0 then 0xA0 else 0x80
        let hi1 := if b = 0xED then 0x9F else 0xBF
        if lo1 ≤ c1 ∧ c1 ≤ hi1 ∧ 0x80 ≤ c2 ∧ c2 ≤ 0xBF then
          (pctAssemble rest2).map
            (fun s => Char.ofNat (((b - 0xE0) * 64 + (c1 - 0x80)) * 64 + (c2 - 0x80)) :: s)
        else none
      | _ => none
    else if 0xF0 ≤ b ∧ b ≤ 0xF4 then
      match rest with
      | .inr c1 :: .inr c2 :: .inr c3 :: rest2 =>
        let lo1 := if b = 0xF0 then 0x90 else 0x80
        let hi1 := if b = 0xF4 then 0x8F else 0xBF
        if lo1 ≤ c1 ∧ c1 ≤ hi1 ∧ 0x80 ≤ c2 ∧ c2 ≤ 0xBF ∧ 0x80 ≤ c3 ∧ c3 ≤ 0xBF then
          (pctAssemble rest2).map
            (fun s =>
              Char.ofNat ((((b - 0xF0) * 64 + (c1 - 0x80)) * 64 + (c2 - 0x80)) * 64 + (c3 - 0x80)) :: s)
        else none
      | _ => none
    else none

/-- `decodeURIComponent`; `none` models a thrown `URIError`. -/
def percentDecode (s : Str) : Option Str :=
  (pctTokens s).bind pctAssemble

def b64Pfx : Str := "data:application/json;base64,".data

def jsonPfx : Str := "data:application/json".data

/-- `fetchJson` from `src/uri.ts`.  The network is an oracle mapping a
resolved URL to the parsed document of a successful fetch (`none` covers
a rejected fetch, a non-2xx status, and a malformed body).  The second
component counts network calls.  `none` in the first component models a
rejected promise (decode error, parse error, or fetch failure). -/
def fetchJson (uri : Str) (options : ResolveOpts) (net : Str → Option Json) :
    Option Json × Nat :=
  let resolved := resolveUri (some uri) options
  if hasPfx b64Pfx resolved then
    match (jsSplit ',' resolved).get? 1 with
    | some payload => ((atob payload).bind jsonParse, 0)
    | none => (none, 0)
  else if hasPfx jsonPfx resolved then
    match (jsSplit ',' resolved).get? 1 with
    | some payload => ((percentDecode payload).bind jsonParse, 0)
    | none => (none, 0)
  else (net resolved, 1)

/-- Token standards, `src/types.ts`. -/
inductive TokenStandard where
  | erc721
  | erc1155
  | unknown
deriving DecidableEq

/-- The chain client, one oracle per read-only contract call issued by
`src/service.ts` (the address is fixed by the request being handled).
`none` models a call that throws. -/
structure ChainReader where
  supports721 : Option Bool
  supports1155 : Option Bool
  tokenURI : Int → Option Str
  uri1155 : Int → Option Str
  nameR : Option Str
  symbolR : Option Str
  ownerR : Option Str
  contractUriR : Option Str

/-- The network oracle behind `fetch`: resolved URL to parsed document of
a successful 2xx response. -/
abbrev Net := Str → Option Json

/-- `detectStandard` from `src/service.ts`: both `supportsInterface`
probes carry `.catch(() => false)`. -/
def detectStandard (ch : ChainReader) : TokenStandard :=
  let isERC721 := ch.supports721.getD false
  if isERC721 then .erc721
  else
    let isERC1155 := ch.supports1155.getD false
    if isERC1155 then .erc1155
    else .unknown

/-- Whitespace trimmed by `BigInt(string)` (ASCII subset). -/
def isJsWs (c : Char) : Bool :=
  c = ' ' || c = '\t' || c = '\n' || c = '\r' || c = '\x0b' || c = '\x0c'

def trimWs (s : Str) : Str :=
  ((s.dropWhile isJsWs).reverse.dropWhile isJsWs).reverse

def digitVal (base : Nat) (c : Char) : Option Nat :=
  match hexVal c with
  | some d => if d < base then some d else none
  | none => none

/-- A non-empty run of digits for the given base, as a number. -/
def digitsToNat (base : Nat) (s : Str) : Option Nat :=
  if s = [] then none
  else s.foldlM (fun acc c => (digitVal base c).map (fun d => acc * base + d)) 0

/-- `BigInt(string)`: trimmed empty input is `0`, a sign is only allowed
on decimal literals, `0x`/`0o`/`0b` radix literals are accepted, anything
else throws (`none`). -/
def jsBigInt (s : Str) : Option Int :=
  match trimWs s with
  | [] => some 0
  | '-' :: rest => (digitsToNat 10 rest).map (fun n => -(n : Int))
  | '+' :: rest => (digitsToNat 10 rest).map (fun n => (n : Int))
  | '0' :: 'x' :: rest => (digitsToNat 16 rest).map (fun n => (n : Int))
  | '0' :: 'X' :: rest => (digitsToNat 16 rest).map (fun n => (n : Int))
  | '0' :: 'o' :: rest => (digitsToNat 8 rest).map (fun n => (n : Int))
  | '0' :: 'O' :: rest => (digitsToNat 8 rest).map (fun n => (n : Int))
  | '0' :: 'b' :: rest => (digitsToNat 2 rest).map (fun n => (n : Int))
  | '0' :: 'B' :: rest => (digitsToNat 2 rest).map (fun n => (n : Int))
  | t => (digitsToNat 10 t).map (fun n => (n : Int))

def hexChars : Str := "0123456789abcdef".data

def hexDigitChar (n : Nat) : Char := hexChars.getD n '0'

/-- Hex digits of a positive number, most significant first (fuel-based;
`fuel ≥ n` suffices). -/
def natHexAux : Nat → Nat → Str
  | 0, _ => []
  | fuel + 1, n =>
    if n = 0 then [] else natHexAux fuel (n / 16) ++ [hexDigitChar (n % 16)]

/-- `n.toString(16)` for a natural number: lower-case hex, no prefix. -/
def natHex (n : Nat) : Str :=
  if n = 0 then ['0'] else natHexAux n n

/-- `BigInt.prototype.toString(16)`. -/
def intToString16 (i : Int) : Str :=
  if i < 0 then '-' :: natHex i.natAbs else natHex i.natAbs

/-- `s.padStart(n, c)`. -/
def padStart (s : Str) (n : Nat) (c : Char) : Str :=
  List.replicate (n - s.length) c ++ s

def idPlaceholder : Str := "\x7bid\x7d".data

/-- `fetchTokenUri` from `src/service.ts`: for ERC1155 call `uri` and
substitute the zero-padded hex id for the literal placeholder, otherwise
(ERC721 or unknown) call `tokenURI`.  `none` models a thrown call. -/
def fetchTokenUri (ch : ChainReader) (tokenId : Int) (standard : TokenStandard) :
    Option Str :=
  match standard with
  | .erc1155 =>
    (ch.uri1155 tokenId).map
      (fun uri => replaceFirst uri idPlaceholder (padStart (intToString16 tokenId) 64 '0'))
  | _ => ch.tokenURI tokenId

/-- The plugin configuration (`src/types.ts`): `cacheTtl` falls back via
`??` to 30 days in milliseconds, the gateways are passed through to the
URI resolver. -/
structure PluginConfig where
  cacheTtl : Option Int
  ipfsGateway : Option Str
  arweaveGateway : Option Str

def DEFAULT_CACHE_TTL : Int := 30 * 24 * 60 * 60 * 1000

def effTtl (cfg : PluginConfig) : Int := cfg.cacheTtl.getD DEFAULT_CACHE_TTL

def uriOpts (cfg : PluginConfig) : ResolveOpts :=
  ⟨cfg.ipfsGateway, cfg.arweaveGateway⟩

/-- `isFresh` from `src/service.ts`: `if (!timestamp) return false;
return Date.now() - timestamp * 1000 < cacheTtl`.  A `0` timestamp is
falsy in JavaScript, so it takes the first return. -/
def isFresh (cacheTtl : Int) (now : Int) (timestamp : Option Int) : Bool :=
  match timestamp with
  | none => false
  | some ts => if ts = 0 then false else decide (now - ts * 1000 < cacheTtl)

/-- A row of `offchain.artifact_token` (`src/schema.ts`).  Metadata
fields hold whatever JSON value the document supplied (the TypeScript
`as string` cast does not convert). -/
structure TokenRow where
  collection : Str
  tokenId : Str
  tokenStandard : TokenStandard
  tokenUri : Option Str
  name : Option Json
  description : Option Json
  image : Option Json
  animationUrl : Option Json
  data : Option Json
  updatedAt : Nat

/-- A row of `offchain.artifact_collection`. -/
structure CollRow where
  collection : Str
  tokenStandard : TokenStandard
  name : Option Json
  symbol : Option Json
  owner : Option Str
  contractUri : Option Str
  description : Option Json
  image : Option Json
  data : Option Json
  updatedAt : Nat

/-- The token table: point lookup by primary key (collection, tokenId). -/
abbrev TokenStore := Str × Str → Option TokenRow

/-- The collection table: point lookup by primary key. -/
abbrev CollStore := Str → Option CollRow

/-- `fetchToken`: select by lower-cased collection and exact tokenId. -/
def fetchTokenFn (st : TokenStore) (collection tokenId : Str) : Option TokenRow :=
  st (toLower collection, tokenId)

/-- `fetchCollection`: select by lower-cased address. -/
def fetchCollectionFn (st : CollStore) (address : Str) : Option CollRow :=
  st (toLower address)

/-- `insert … onConflictDoUpdate` on the token table: the row for the key
is created or fully replaced. -/
def upsertTokenFn (st : TokenStore) (row : TokenRow) : TokenStore :=
  fun k => if k = (row.collection, row.tokenId) then some row else st k

def upsertCollFn (st : CollStore) (row : CollRow) : CollStore :=
  fun k => if k = row.collection then some row else st k

/-- The document fetched for a token URI: skipped when the URI is null or
empty (falsy `if (tokenUri)`), `none` when the try/catch around
`fetchJson` absorbed a failure. -/
def tokenMeta (cfg : PluginConfig) (net : Net) (tokenUri : Option Str) : Option Json :=
  match tokenUri with
  | some u => if u = [] then none else (fetchJson u (uriOpts cfg) net).1
  | none => none

/-- The row assembled by `updateToken` before the upsert. -/
def buildTokenRow (cfg : PluginConfig) (ch : ChainReader) (net : Net)
    (collection tokenId : Str) (tokenIdBigInt : Int) (nowMs : Nat) : TokenRow :=
  let address := toLower collection
  let tokenStandard := detectStandard ch
  let tokenUri := fetchTokenUri ch tokenIdBigInt tokenStandard
  let meta := tokenMeta cfg net tokenUri
  { collection := address
    tokenId := tokenId
    tokenStandard := tokenStandard
    tokenUri := tokenUri
    name := meta.bind (fun m => jsCoalesce (jsGet m "name".data))
    description := meta.bind (fun m => jsCoalesce (jsGet m "description".data))
    image := meta.bind (fun m => jsCoalesce (jsGet m "image".data))
    animationUrl := meta.bind (fun m => jsCoalesce (jsGet m "animation_url".data))
    data := meta
    updatedAt := nowMs / 1000 }

/-- `updateToken` from `src/service.ts`.  `BigInt(tokenId)` throws on a
malformed id; every chain and document failure is absorbed into the row;
the final upsert is the only other failure point, represented by the
`writeOk` oracle.  `none` models a rejected promise. -/
def updateTokenFn (cfg : PluginConfig) (ch : ChainReader) (net : Net)
    (collection tokenId : Str) (nowMs : Nat) (st : TokenStore) (writeOk : Bool) :
    Option TokenStore :=
  match jsBigInt tokenId with
  | none => none
  | some n =>
    if writeOk then
      some (upsertTokenFn st (buildTokenRow cfg ch net collection tokenId n nowMs))
    else none

/-- The contractURI document fetched by `updateCollection` (skipped for a
null or empty `contractURI()` result, `none` when the fetch failed). -/
def collMeta (cfg : PluginConfig) (ch : ChainReader) (net : Net) : Option Json :=
  match ch.contractUriR with
  | some u => if u = [] then none else (fetchJson u (uriOpts cfg) net).1
  | none => none

/-- `chainValue ?? docField ?? null` for collection `name`/`symbol`: the
on-chain string wins whenever the call succeeded. -/
def chainOrDoc (chainVal : Option Str) (docField : Option Json) : Option Json :=
  match chainVal with
  | some s => some (.str s)
  | none => jsCoalesce docField

/-- The row assembled by `updateCollection` before the upsert. -/
def buildCollRow (cfg : PluginConfig) (ch : ChainReader) (net : Net)
    (address : Str) (nowMs : Nat) : CollRow :=
  let normalized := toLower address
  let meta := collMeta cfg ch net
  { collection := normalized
    tokenStandard := detectStandard ch
    name := chainOrDoc ch.nameR (meta.bind (fun m => jsGet m "name".data))
    symbol := chainOrDoc ch.symbolR (meta.bind (fun m => jsGet m "symbol".data))
    owner := ch.ownerR.map toLower
    contractUri := ch.contractUriR
    description := meta.bind (fun m => jsCoalesce (jsGet m "description".data))
    image := meta.bind (fun m => jsCoalesce (jsGet m "image".data))
    data := meta
    updatedAt := nowMs / 1000 }

/-- `updateCollection` from `src/service.ts`: all four chain reads and
both interface probes carry their own `.catch`, the document fetch sits
in a try/catch, so only the store write (the `writeOk` oracle) can make
the operation throw. -/
def updateCollectionFn (cfg : PluginConfig) (ch : ChainReader) (net : Net)
    (address : Str) (nowMs : Nat) (st : CollStore) (writeOk : Bool) :
    Option CollStore :=
  if writeOk then some (upsertCollFn st (buildCollRow cfg ch net address nowMs))
  else none

/-- An HTTP-ish response from a route handler: `c.json(body)` (the body
may be `null` when a re-read after refresh finds nothing) or
`c.json({error}, 500)`. -/
inductive Response (α : Type) where
  | ok (body : Option α)
  | err (status : Nat)

/-- Everything observable about one handled request: the response, the
store as left behind, and whether a refresh was attempted. -/
structure RouteOut (α σ : Type) where
  resp : Response α
  store : σ
  attempted : Bool

/-- The `cached && isFresh(cached.updatedAt)` guard of the GET routes. -/
def cachedFreshT (cfg : PluginConfig) (nowMs : Nat) (cached : Option TokenRow) : Bool :=
  match cached with
  | some c => isFresh (effTtl cfg) (nowMs : Int) (some (c.updatedAt : Int))
  | none => false

def cachedFreshC (cfg : PluginConfig) (nowMs : Nat) (cached : Option CollRow) : Bool :=
  match cached with
  | some c => isFresh (effTtl cfg) (nowMs : Int) (some (c.updatedAt : Int))
  | none => false

/-- `GET /token/:collection/:tokenId` from `src/routes.ts`:  return the
cached row when fresh; otherwise try `updateToken` and re-read; if the
refresh threw, fall back to the cached row, else answer 500. -/
def getTokenRoute (cfg : PluginConfig) (ch : ChainReader) (net : Net)
    (collection tokenId : Str) (st : TokenStore) (nowMs : Nat) (writeOk : Bool) :
    RouteOut TokenRow TokenStore :=
  let cached := fetchTokenFn st collection tokenId
  if cachedFreshT cfg nowMs cached then ⟨.ok cached, st, false⟩
  else
    match updateTokenFn cfg ch net collection tokenId nowMs st writeOk with
    | some st2 => ⟨.ok (fetchTokenFn st2 collection tokenId), st2, true⟩
    | none =>
      match cached with
      | some c => ⟨.ok (some c), st, true⟩
      | none => ⟨.err 500, st, true⟩

/-- `POST /token/:collection/:tokenId`: force refresh; on failure fall
back to whatever cached row exists, else 500. -/
def postTokenRoute (cfg : PluginConfig) (ch : ChainReader) (net : Net)
    (collection tokenId : Str) (st : TokenStore) (nowMs : Nat) (writeOk : Bool) :
    RouteOut TokenRow TokenStore :=
  match updateTokenFn cfg ch net collection tokenId nowMs st writeOk with
  | some st2 => ⟨.ok (fetchTokenFn st2 collection tokenId), st2, true⟩
  | none =>
    match fetchTokenFn st collection tokenId with
    | some c => ⟨.ok (some c), st, true⟩
    | none => ⟨.err 500, st, true⟩

/-- `GET /collection/:address`. -/
def getCollectionRoute (cfg : PluginConfig) (ch : ChainReader) (net : Net)
    (address : Str) (st : CollStore) (nowMs : Nat) (writeOk : Bool) :
    RouteOut CollRow CollStore :=
  let cached := fetchCollectionFn st address
  if cachedFreshC cfg nowMs cached then ⟨.ok cached, st, false⟩
  else
    match updateCollectionFn cfg ch net address nowMs st writeOk with
    | some st2 => ⟨.ok (fetchCollectionFn st2 address), st2, true⟩
    | none =>
      match cached with
      | some c => ⟨.ok (some c), st, true⟩
      | none => ⟨.err 500, st, true⟩

/-- `POST /collection/:address`. -/
def postCollectionRoute (cfg : PluginConfig) (ch : ChainReader) (net : Net)
    (address : Str) (st : CollStore) (nowMs : Nat) (writeOk : Bool) :
    RouteOut CollRow CollStore :=
  match updateCollectionFn cfg ch net address nowMs st writeOk with
  | some st2 => ⟨.ok (fetchCollectionFn st2 address), st2, true⟩
  | none =>
    match fetchCollectionFn st address with
    | some c => ⟨.ok (some c), st, true⟩
    | none => ⟨.err 500, st, true⟩

/-- Default plugin configuration (no TTL or gateway overrides). -/
def cfgA : PluginConfig := ⟨none, none, none⟩

/-- A chain on which every read-only call throws. -/
def chFail : ChainReader :=
  ⟨none, none, fun _ => none, fun _ => none, none, none, none, none⟩

/-- A network on which every fetch fails. -/
def netFail : Net := fun _ => none

def stEmptyT : TokenStore := fun _ => none

def stEmptyC : CollStore := fun _ => none

/-- A stale token row (`updatedAt = 0`) for concrete route scenarios. -/
def rowStale : TokenRow :=
  { collection := "0xabc".data, tokenId := "7".data, tokenStandard := .unknown,
    tokenUri := none, name := none, description := none, image := none,
    animationUrl := none, data := none, updatedAt := 0 }

def stOne : TokenStore :=
  fun k => if k = ("0xabc".data, "7".data) then some rowStale else none

/-- A stale collection row for concrete route scenarios. -/
def collStale : CollRow :=
  { collection := "0xabc".data, tokenStandard := .unknown, name := none,
    symbol := none, owner := none, contractUri := none, description := none,
    image := none, data := none, updatedAt := 0 }

def cstOne : CollStore :=
  fun k => if k = "0xabc".data then some collStale else none

/-- An ERC1155 contract whose `uri(255)` returns a templated URI. -/
def chC6 : ChainReader :=
  ⟨none, some true, fun _ => none,
   fun i => if i = 255 then some "https://x/\x7bid\x7d.json".data else none,
   none, none, none, none⟩

/-- A collection contract whose on-chain `name()` succeeds while its
`contractURI()` document carries a different name (and the only `symbol`
source is the document). -/
def chC8 : ChainReader :=
  ⟨none, none, fun _ => none, fun _ => none,
   some "OnChainName".data, none, none,
   some "data:application/json,%7B%22name%22%3A%22DocName%22%2C%22symbol%22%3A%22DS%22%7D".data⟩

theorem jsSplit_no_sep (sep : Char) (l : Str) (h : ¬ sep ∈ l) : jsSplit sep l = [l] := by
  induction l with
  | nil => rfl
  | cons c rest ih =>
    have hc : ¬ c = sep := by
      intro e; exact h (by simp [e])
    have hr : jsSplit sep rest = [rest] := ih (fun m => h (List.mem_cons_of_mem _ m))
    simp [jsSplit, hc, hr]

theorem hasPfx_append_self (p r : Str) : hasPfx p (p ++ r) = true := by
  induction p with
  | nil => rfl
  | cons c cs ih => simp [hasPfx, ih]

/-- C10: a present timestamp equal to zero is treated exactly like an
absent one — `isFresh` returns `false` for `updatedAt = 0` under every
configured TTL and at every current time, just as for a missing
timestamp, because the absence check `if (!timestamp)` tests falsiness. -/
theorem isFresh_zero_timestamp :
    ∀ (cacheTtl now : Int),
      isFresh cacheTtl now (some 0) = false ∧ isFresh cacheTtl now none = false := by
  intro cacheTtl now
  exact ⟨rfl, rfl⟩

/-- C2 (counterexample): the claim says a present timestamp is fresh
exactly when `now - ts * 1000 < cacheTtl`; at `ts = 0`,
`now = 1760000000000`, `cacheTtl = 2000000000000` that condition holds
yet `isFresh` returns `false` (zero is falsy). -/
theorem isFresh_claim_counterexample :
    isFresh 2000000000000 1760000000000 (some 0) = false ∧
    (1760000000000 : Int) - 0 * 1000 < 2000000000000 := by
  exact ⟨rfl, by decide⟩

/-- C2 (amended): an absent timestamp is never fresh, and so is a zero
timestamp (falsy); any other timestamp is fresh iff
`now - ts * 1000 < cacheTtl`, so at the boundary where exactly
`cacheTtl` milliseconds have elapsed the result is `false`. -/
theorem isFresh_freshness_window :
    ∀ (cacheTtl now ts : Int),
      isFresh cacheTtl now none = false ∧
      isFresh cacheTtl now (some 0) = false ∧
      (ts ≠ 0 → (isFresh cacheTtl now (some ts) = true ↔ now - ts * 1000 < cacheTtl)) ∧
      (now - ts * 1000 = cacheTtl → isFresh cacheTtl now (some ts) = false) := by
  intro cacheTtl now ts
  refine ⟨rfl, rfl, ?_, ?_⟩
  · intro h
    simp [isFresh, h]
  · intro h
    by_cases h0 : ts = 0
    · simp [isFresh, h0]
    · simp [isFresh, h0]
      omega

theorem isFresh_freshness_window_witness :
    isFresh 1000000 500000 (some 1) = true ∧
    isFresh 2592000000 2592001000 (some 1) = false :=
  ⟨((isFresh_freshness_window 1000000 500000 1).2.2.1 (by decide)).mpr (by decide),
   (isFresh_freshness_window 2592000000 2592001000 1).2.2.2 (by decide)⟩

/-- C7: standard detection probes ERC721 support first and returns
ERC721 on an affirmative answer, then probes ERC1155, and otherwise
returns Unknown; a throwing probe counts as a negative answer (only a
successful `some true` selects a standard) and the function is total, so
probing never aborts a refresh. -/
theorem detectStandard_probe_order :
    ∀ ch : ChainReader,
      detectStandard ch =
        if ch.supports721 = some true then .erc721
        else if ch.supports1155 = some true then .erc1155
        else .unknown := by
  intro ch
  obtain ⟨s721, s1155, tU, u1, nR, sR, oR, cR⟩ := ch
  rcases s721 with _ | b1
  · rcases s1155 with _ | b2
    · rfl
    · cases b2 <;> rfl
  · rcases s1155 with _ | b2
    · cases b1 <;> rfl
    · cases b1 <;> cases b2 <;> rfl

/-- C4: `resolveUri` applies its rules in order with first match winning:
an inline-data URI is returned unchanged; `ipfs://` is rewritten to the
IPFS gateway plus the remainder; `ar://` to the Arweave gateway plus the
remainder; a bare `Qm`/`baf` hash gets the IPFS gateway prefixed; any
other string is returned unchanged; an absent or empty input resolves to
the empty string. -/
theorem resolveUri_rules :
    ∀ (opts : ResolveOpts) (r u : Str),
      resolveUri none opts = [] ∧
      resolveUri (some []) opts = [] ∧
      resolveUri (some (dataPfx ++ r)) opts = dataPfx ++ r ∧
      resolveUri (some (ipfsPfx ++ r)) opts =
        jsOr opts.ipfsGateway DEFAULT_IPFS_GATEWAY ++ r ∧
      resolveUri (some (arPfx ++ r)) opts =
        jsOr opts.arweaveGateway DEFAULT_ARWEAVE_GATEWAY ++ r ∧
      resolveUri (some (qmPfx ++ r)) opts =
        jsOr opts.ipfsGateway DEFAULT_IPFS_GATEWAY ++ (qmPfx ++ r) ∧
      resolveUri (some (bafPfx ++ r)) opts =
        jsOr opts.ipfsGateway DEFAULT_IPFS_GATEWAY ++ (bafPfx ++ r) ∧
      (hasPfx dataPfx u = false → hasPfx ipfsPfx u = false →
       hasPfx arPfx u = false → hasPfx qmPfx u = false →
       hasPfx bafPfx u = false → resolveUri (some u) opts = u) := by
  intro opts r u
  refine ⟨rfl, rfl, rfl, rfl, rfl, rfl, rfl, ?_⟩
  intro h1 h2 h3 h4 h5
  cases u with
  | nil => rfl
  | cons c cs => simp [resolveUri, isEmptyStr, h1, h2, h3, h4, h5]

theorem resolveUri_rules_witness :
    resolveUri (some "https://example.com/m.json".data) ⟨none, none⟩ =
      "https://example.com/m.json".data :=
  (resolveUri_rules ⟨none, none⟩ [] "https://example.com/m.json".data).2.2.2.2.2.2.2
    rfl rfl rfl rfl rfl

theorem natHexAux_length_le :
    ∀ (fuel n k : Nat), n ≤ fuel → n < 16 ^ k → (natHexAux fuel n).length ≤ k := by
  intro fuel
  induction fuel with
  | zero => intro n k _ _; simp [natHexAux]
  | succ f ih =>
    intro n k h1 h2
    by_cases h0 : n = 0
    · simp [natHexAux, h0]
    · have hk : 1 ≤ k := by
        rcases Nat.eq_zero_or_pos k with hk0 | hk0
        · subst hk0; simp at h2; omega
        · omega
      have hdiv : n / 16 < 16 ^ (k - 1) := by
        have h16 : (16 : Nat) ^ k = 16 ^ (k - 1) * 16 := by
          conv_lhs => rw [show k = (k - 1) + 1 by omega]
          ring
        rw [Nat.div_lt_iff_lt_mul (by norm_num)]
        omega
      have hfuel : n / 16 ≤ f := by
        have := Nat.div_lt_self (by omega : 0 < n) (by norm_num : 1 < 16)
        omega
      have hlen := ih (n / 16) (k - 1) hfuel hdiv
      simp [natHexAux, h0]
      omega

theorem natHex_length_le (n k : Nat) (hk : 1 ≤ k) (h : n < 16 ^ k) :
    (natHex n).length ≤ k := by
  by_cases h0 : n = 0
  · simp [natHex, h0]; omega
  · simp [natHex, h0]
    exact natHexAux_length_le n n k le_rfl h

theorem hexDigitChar_mem (m : Nat) : hexDigitChar m ∈ hexChars := by
  by_cases h : m < 16
  · interval_cases m <;> decide
  · have hlen : hexChars.length = 16 := by decide
    have : hexChars.getD m '0' = '0' := by
      apply List.getD_eq_default
      omega
    rw [hexDigitChar, this]
    decide

theorem natHexAux_mem_hexChars :
    ∀ (fuel n : Nat) (c : Char), c ∈ natHexAux fuel n → c ∈ hexChars := by
  intro fuel
  induction fuel with
  | zero => intro n c h; simp [natHexAux] at h
  | succ f ih =>
    intro n c h
    by_cases h0 : n = 0
    · simp [natHexAux, h0] at h
    · simp only [natHexAux, h0, if_false, List.mem_append, List.mem_singleton] at h
      rcases h with h | h
      · exact ih _ _ h
      · rw [h]; exact hexDigitChar_mem _

theorem natHex_mem_hexChars (n : Nat) (c : Char) (h : c ∈ natHex n) : c ∈ hexChars := by
  by_cases h0 : n = 0
  · simp [natHex, h0] at h
    rw [h]; decide
  · simp [natHex, h0] at h
    exact natHexAux_mem_hexChars n n c h

theorem padStart_length (s : Str) (n : Nat) (c : Char) (h : s.length ≤ n) :
    (padStart s n c).length = n := by
  simp [padStart]
  omega

/-- C6: for an ERC1155 token the URI is the contract's `uri()` result
with the first literal placeholder replaced by the token id rendered in
hex, left-padded with zeros to 64 digits; for every valid `uint256` id
the rendering is exactly 64 characters drawn from the lower-case hex
alphabet, and `uri() = "https://x/{id}.json"` with id 255 yields
`https://x/` + 62 zeros + `ff.json`. -/
theorem fetchTokenUri_erc1155_template :
    (∀ (ch : ChainReader) (tokenId : Int) (uri : Str),
      ch.uri1155 tokenId = some uri → 0 ≤ tokenId → tokenId < 2 ^ 256 →
      fetchTokenUri ch tokenId .erc1155 =
        some (replaceFirst uri idPlaceholder (padStart (intToString16 tokenId) 64 '0')) ∧
      (padStart (intToString16 tokenId) 64 '0').length = 64 ∧
      ∀ c ∈ padStart (intToString16 tokenId) 64 '0', c ∈ hexChars) ∧
    fetchTokenUri chC6 255 .erc1155 =
      some ("https://x/".data ++ List.replicate 62 '0' ++ "ff.json".data) := by
  constructor
  · intro ch tokenId uri h hnn hlt
    have hneg : ¬ tokenId < 0 := by omega
    have habs : tokenId.natAbs < 16 ^ 64 := by
      have h16 : (16 : Nat) ^ 64 = 2 ^ 256 := by norm_num
      rw [h16]
      omega
    have hlen : (intToString16 tokenId).length ≤ 64 := by
      rw [intToString16]
      simp [hneg]
      exact natHex_length_le _ 64 (by norm_num) habs
    refine ⟨by simp [fetchTokenUri, h], padStart_length _ _ _ hlen, ?_⟩
    intro c hc
    simp only [padStart, List.mem_append, List.mem_replicate] at hc
    rcases hc with hc | hc
    · rw [hc.2]; decide
    · rw [intToString16] at hc
      simp [hneg] at hc
      exact natHex_mem_hexChars _ _ hc
  · decide

theorem fetchTokenUri_erc1155_template_witness :
    fetchTokenUri chC6 255 .erc1155 =
      some (replaceFirst "https://x/\x7bid\x7d.json".data idPlaceholder
        (padStart (intToString16 255) 64 '0')) ∧
    (padStart (intToString16 255) 64 '0').length = 64 :=
  have T := fetchTokenUri_erc1155_template.1 chC6 255 "https://x/\x7bid\x7d.json".data
    (by decide) (by decide) (by decide)
  ⟨T.1, T.2.1⟩

/-- C3: with a well-formed tokenId, `updateToken` succeeds whenever the
store write succeeds — quantified over arbitrary chain and network
behaviour, so every chain-call, document-fetch and parse failure is
absorbed — it throws exactly when the write fails, and the absorbed
failures only leave the affected fields absent in the row that is still
written. -/
theorem updateToken_absorbs_failures :
    ∀ (cfg : PluginConfig) (ch : ChainReader) (net : Net)
      (collection tokenId : Str) (n : Int) (nowMs : Nat) (st : TokenStore),
      jsBigInt tokenId = some n →
      (updateTokenFn cfg ch net collection tokenId nowMs st true =
        some (upsertTokenFn st (buildTokenRow cfg ch net collection tokenId n nowMs))) ∧
      (∀ writeOk, updateTokenFn cfg ch net collection tokenId nowMs st writeOk = none ↔
        writeOk = false) ∧
      (fetchTokenUri ch n (detectStandard ch) = none →
        (buildTokenRow cfg ch net collection tokenId n nowMs).tokenUri = none ∧
        (buildTokenRow cfg ch net collection tokenId n nowMs).name = none ∧
        (buildTokenRow cfg ch net collection tokenId n nowMs).description = none ∧
        (buildTokenRow cfg ch net collection tokenId n nowMs).image = none ∧
        (buildTokenRow cfg ch net collection tokenId n nowMs).animationUrl = none ∧
        (buildTokenRow cfg ch net collection tokenId n nowMs).data = none) ∧
      (∀ u, fetchTokenUri ch n (detectStandard ch) = some u → u ≠ [] →
        (fetchJson u (uriOpts cfg) net).1 = none →
        (buildTokenRow cfg ch net collection tokenId n nowMs).tokenUri = some u ∧
        (buildTokenRow cfg ch net collection tokenId n nowMs).name = none ∧
        (buildTokenRow cfg ch net collection tokenId n nowMs).description = none ∧
        (buildTokenRow cfg ch net collection tokenId n nowMs).image = none ∧
        (buildTokenRow cfg ch net collection tokenId n nowMs).animationUrl = none ∧
        (buildTokenRow cfg ch net collection tokenId n nowMs).data = none) := by
  intro cfg ch net collection tokenId n nowMs st h
  refine ⟨by simp [updateTokenFn, h], ?_, ?_, ?_⟩
  · intro writeOk
    cases writeOk <;> simp [updateTokenFn, h]
  · intro hu
    simp [buildTokenRow, tokenMeta, hu]
  · intro u hu hne hf
    simp [buildTokenRow, tokenMeta, hu, hne, hf]

theorem updateToken_absorbs_failures_witness :
    updateTokenFn cfgA chFail netFail "0xAbC".data "42".data 5000 stEmptyT true =
      some (upsertTokenFn stEmptyT
        (buildTokenRow cfgA chFail netFail "0xAbC".data "42".data 42 5000)) ∧
    (buildTokenRow cfgA chFail netFail "0xAbC".data "42".data 42 5000).tokenUri = none ∧
    (buildTokenRow cfgA chFail netFail "0xAbC".data "42".data 42 5000).data = none :=
  have T := updateToken_absorbs_failures cfgA chFail netFail "0xAbC".data "42".data
    42 5000 stEmptyT (by decide)
  ⟨T.1, (T.2.2.1 rfl).1, (T.2.2.1 rfl).2.2.2.2.2⟩

/-- C9: a successful refresh upserts a row that is a function of the
upstream oracles alone (never of the previous store contents, so every
non-key field is fully replaced, including fields that resolved to
absent), whose identity fields equal the key and whose `updatedAt` is the
current time; two refreshes against unchanged upstream data build the
same row apart from `updatedAt`. -/
theorem refresh_full_replacement :
    ∀ (cfg : PluginConfig) (ch : ChainReader) (net : Net)
      (collection tokenId address : Str) (n : Int) (nowMs nowMs2 : Nat)
      (st : TokenStore) (st2 : TokenStore) (cst : CollStore) (cst2 : CollStore),
      (jsBigInt tokenId = some n →
        updateTokenFn cfg ch net collection tokenId nowMs st true = some st2 →
        st2 (toLower collection, tokenId) =
          some (buildTokenRow cfg ch net collection tokenId n nowMs) ∧
        (buildTokenRow cfg ch net collection tokenId n nowMs).collection = toLower collection ∧
        (buildTokenRow cfg ch net collection tokenId n nowMs).tokenId = tokenId ∧
        (buildTokenRow cfg ch net collection tokenId n nowMs).updatedAt = nowMs / 1000 ∧
        buildTokenRow cfg ch net collection tokenId n nowMs =
          { buildTokenRow cfg ch net collection tokenId n nowMs2 with
              updatedAt := nowMs / 1000 }) ∧
      (updateCollectionFn cfg ch net address nowMs cst true = some cst2 →
        cst2 (toLower address) = some (buildCollRow cfg ch net address nowMs) ∧
        (buildCollRow cfg ch net address nowMs).collection = toLower address ∧
        (buildCollRow cfg ch net address nowMs).updatedAt = nowMs / 1000 ∧
        buildCollRow cfg ch net address nowMs =
          { buildCollRow cfg ch net address nowMs2 with updatedAt := nowMs / 1000 }) := by
  intro cfg ch net collection tokenId address n nowMs nowMs2 st st2 cst cst2
  constructor
  · intro hb hu
    simp only [updateTokenFn, hb, if_true, Option.some.injEq] at hu
    refine ⟨?_, rfl, rfl, rfl, rfl⟩
    rw [← hu]
    exact if_pos rfl
  · intro hu
    simp only [updateCollectionFn, if_true, Option.some.injEq] at hu
    refine ⟨?_, rfl, rfl, rfl⟩
    rw [← hu]
    exact if_pos rfl

theorem refresh_full_replacement_witness :
    upsertTokenFn stEmptyT (buildTokenRow cfgA chFail netFail "0xA".data "1".data 1 9000)
      (toLower "0xA".data, "1".data) =
      some (buildTokenRow cfgA chFail netFail "0xA".data "1".data 1 9000) ∧
    (buildTokenRow cfgA chFail netFail "0xA".data "1".data 1 9000).updatedAt = 9000 / 1000 ∧
    upsertCollFn stEmptyC (buildCollRow cfgA chFail netFail "0xB".data 9000)
      (toLower "0xB".data) = some (buildCollRow cfgA chFail netFail "0xB".data 9000) ∧
    buildCollRow cfgA chFail netFail "0xB".data 9000 =
      { buildCollRow cfgA chFail netFail "0xB".data 123456 with updatedAt := 9000 / 1000 } :=
  have T := refresh_full_replacement cfgA chFail netFail "0xA".data "1".data "0xB".data
    1 9000 123456 stEmptyT
    (upsertTokenFn stEmptyT (buildTokenRow cfgA chFail netFail "0xA".data "1".data 1 9000))
    stEmptyC
    (upsertCollFn stEmptyC (buildCollRow cfgA chFail netFail "0xB".data 9000))
  have T1 := T.1 (by decide) rfl
  have T2 := T.2 rfl
  ⟨T1.1, T1.2.2.2.1, T2.1, T2.2.2.2⟩

/-- C8: in the stored collection row, `name` (resp. `symbol`) is the
on-chain `name()` (resp. `symbol()`) value whenever that read succeeded —
even when the contractURI document carries a different value — and only
when the chain read was absent does it fall back to the document's field;
a successful refresh stores exactly this row. -/
theorem collection_name_symbol_precedence :
    ∀ (cfg : PluginConfig) (ch : ChainReader) (net : Net) (address : Str)
      (nowMs : Nat) (st : CollStore) (st2 : CollStore),
      (∀ s, ch.nameR = some s →
        (buildCollRow cfg ch net address nowMs).name = some (.str s)) ∧
      (ch.nameR = none →
        (buildCollRow cfg ch net address nowMs).name =
          jsCoalesce ((collMeta cfg ch net).bind (fun m => jsGet m "name".data))) ∧
      (∀ s, ch.symbolR = some s →
        (buildCollRow cfg ch net address nowMs).symbol = some (.str s)) ∧
      (ch.symbolR = none →
        (buildCollRow cfg ch net address nowMs).symbol =
          jsCoalesce ((collMeta cfg ch net).bind (fun m => jsGet m "symbol".data))) ∧
      (updateCollectionFn cfg ch net address nowMs st true = some st2 →
        st2 (toLower address) = some (buildCollRow cfg ch net address nowMs)) := by
  intro cfg ch net address nowMs st st2
  refine ⟨?_, ?_, ?_, ?_, ?_⟩
  · intro s h
    simp [buildCollRow, chainOrDoc, h]
  · intro h
    simp [buildCollRow, chainOrDoc, h]
  · intro s h
    simp [buildCollRow, chainOrDoc, h]
  · intro h
    simp [buildCollRow, chainOrDoc, h]
  · intro hu
    simp only [updateCollectionFn, if_true, Option.some.injEq] at hu
    rw [← hu]
    exact if_pos rfl

theorem collection_name_symbol_precedence_witness :
    (buildCollRow cfgA chC8 netFail "0xC".data 3000).name =
      some (.str "OnChainName".data) ∧
    (buildCollRow cfgA chC8 netFail "0xC".data 3000).symbol =
      some (.str "DS".data) :=
  have T := collection_name_symbol_precedence cfgA chC8 netFail "0xC".data 3000
    stEmptyC stEmptyC
  ⟨T.1 "OnChainName".data rfl, (T.2.2.2.1 rfl).trans rfl⟩

/-- C5: for an inline data URI, `fetchJson` performs no network call: a
base64 payload is decoded with `atob` and parsed as JSON, a plain payload
is percent-decoded and parsed as JSON; the base64 payload `eyJhIjoxfQ==`
and the percent-encoded payload `%7B%22a%22%3A1%7D` both yield the
document `{"a":1}`. -/
theorem fetchJson_inline_data :
    ∀ (payload : Str) (opts : ResolveOpts) (net : Net),
      (¬ ',' ∈ payload →
        fetchJson (b64Pfx ++ payload) opts net = ((atob payload).bind jsonParse, 0) ∧
        fetchJson (jsonPfx ++ [','] ++ payload) opts net =
          ((percentDecode payload).bind jsonParse, 0)) ∧
      fetchJson (b64Pfx ++ "eyJhIjoxfQ==".data) opts net =
        (some (Json.obj [("a".data, Json.num "1".data)]), 0) ∧
      fetchJson (jsonPfx ++ [','] ++ "%7B%22a%22%3A1%7D".data) opts net =
        (some (Json.obj [("a".data, Json.num "1".data)]), 0) := by
  intro payload opts net
  refine ⟨?_, rfl, rfl⟩
  intro h
  have hone : jsSplit ',' payload = [payload] := jsSplit_no_sep ',' payload h
  constructor
  · have hsplit : jsSplit ',' (b64Pfx ++ payload) =
        "data:application/json;base64".data :: jsSplit ',' payload := rfl
    have hres : resolveUri (some (b64Pfx ++ payload)) opts = b64Pfx ++ payload := rfl
    have hpfx : hasPfx b64Pfx (b64Pfx ++ payload) = true := hasPfx_append_self _ _
    simp [fetchJson, hres, hpfx, hsplit, hone]
  · have hsplit : jsSplit ',' (jsonPfx ++ ',' :: payload) =
        "data:application/json".data :: jsSplit ',' payload := rfl
    have hres : resolveUri (some (jsonPfx ++ ',' :: payload)) opts =
        jsonPfx ++ ',' :: payload := rfl
    have hb64 : hasPfx b64Pfx (jsonPfx ++ ',' :: payload) = false := rfl
    have hpfx : hasPfx jsonPfx (jsonPfx ++ ',' :: payload) = true := by
      have := hasPfx_append_self jsonPfx (',' :: payload)
      simpa using this
    simp [fetchJson, hres, hb64, hpfx, hsplit, hone]

theorem fetchJson_inline_data_witness :
    fetchJson (b64Pfx ++ "eyJhIjoxfQ==".data) ⟨none, none⟩ netFail =
      ((atob "eyJhIjoxfQ==".data).bind jsonParse, 0) ∧
    fetchJson (jsonPfx ++ [','] ++ "%7B%22a%22%3A1%7D".data) ⟨none, none⟩ netFail =
      ((percentDecode "%7B%22a%22%3A1%7D".data).bind jsonParse, 0) :=
  ⟨((fetchJson_inline_data "eyJhIjoxfQ==".data ⟨none, none⟩ netFail).1 (by decide)).1,
   ((fetchJson_inline_data "%7B%22a%22%3A1%7D".data ⟨none, none⟩ netFail).1 (by decide)).2⟩

/-- C1: on a GET of a token or collection key a fresh cached record is
returned with no refresh attempted; otherwise a refresh is attempted and
on success the re-read record is returned, while on a thrown refresh the
previously cached record is returned when one existed and a 500 error
only when none did; on the POST force-refresh path a thrown refresh
likewise falls back to whatever cached record exists and reports failure
only if none does. -/
theorem routes_stale_fallback :
    ∀ (cfg : PluginConfig) (ch : ChainReader) (net : Net)
      (collection tokenId address : Str) (st : TokenStore) (cst : CollStore)
      (nowMs : Nat) (writeOk : Bool),
      (∀ c, fetchTokenFn st collection tokenId = some c →
        cachedFreshT cfg nowMs (some c) = true →
        getTokenRoute cfg ch net collection tokenId st nowMs writeOk =
          ⟨.ok (some c), st, false⟩) ∧
      (∀ st2, cachedFreshT cfg nowMs (fetchTokenFn st collection tokenId) = false →
        updateTokenFn cfg ch net collection tokenId nowMs st writeOk = some st2 →
        getTokenRoute cfg ch net collection tokenId st nowMs writeOk =
          ⟨.ok (fetchTokenFn st2 collection tokenId), st2, true⟩) ∧
      (∀ c, fetchTokenFn st collection tokenId = some c →
        cachedFreshT cfg nowMs (some c) = false →
        updateTokenFn cfg ch net collection tokenId nowMs st writeOk = none →
        getTokenRoute cfg ch net collection tokenId st nowMs writeOk =
          ⟨.ok (some c), st, true⟩) ∧
      (fetchTokenFn st collection tokenId = none →
        updateTokenFn cfg ch net collection tokenId nowMs st writeOk = none →
        getTokenRoute cfg ch net collection tokenId st nowMs writeOk =
          ⟨.err 500, st, true⟩) ∧
      (∀ st2, updateTokenFn cfg ch net collection tokenId nowMs st writeOk = some st2 →
        postTokenRoute cfg ch net collection tokenId st nowMs writeOk =
          ⟨.ok (fetchTokenFn st2 collection tokenId), st2, true⟩) ∧
      (∀ c, updateTokenFn cfg ch net collection tokenId nowMs st writeOk = none →
        fetchTokenFn st collection tokenId = some c →
        postTokenRoute cfg ch net collection tokenId st nowMs writeOk =
          ⟨.ok (some c), st, true⟩) ∧
      (updateTokenFn cfg ch net collection tokenId nowMs st writeOk = none →
        fetchTokenFn st collection tokenId = none →
        postTokenRoute cfg ch net collection tokenId st nowMs writeOk =
          ⟨.err 500, st, true⟩) ∧
      (∀ c, fetchCollectionFn cst address = some c →
        cachedFreshC cfg nowMs (some c) = true →
        getCollectionRoute cfg ch net address cst nowMs writeOk =
          ⟨.ok (some c), cst, false⟩) ∧
      (∀ cst2, cachedFreshC cfg nowMs (fetchCollectionFn cst address) = false →
        updateCollectionFn cfg ch net address nowMs cst writeOk = some cst2 →
        getCollectionRoute cfg ch net address cst nowMs writeOk =
          ⟨.ok (fetchCollectionFn cst2 address), cst2, true⟩) ∧
      (∀ c, fetchCollectionFn cst address = some c →
        cachedFreshC cfg nowMs (some c) = false →
        updateCollectionFn cfg ch net address nowMs cst writeOk = none →
        getCollectionRoute cfg ch net address cst nowMs writeOk =
          ⟨.ok (some c), cst, true⟩) ∧
      (fetchCollectionFn cst address = none →
        updateCollectionFn cfg ch net address nowMs cst writeOk = none →
        getCollectionRoute cfg ch net address cst nowMs writeOk =
          ⟨.err 500, cst, true⟩) ∧
      (∀ cst2, updateCollectionFn cfg ch net address nowMs cst writeOk = some cst2 →
        postCollectionRoute cfg ch net address cst nowMs writeOk =
          ⟨.ok (fetchCollectionFn cst2 address), cst2, true⟩) ∧
      (∀ c, updateCollectionFn cfg ch net address nowMs cst writeOk = none →
        fetchCollectionFn cst address = some c →
        postCollectionRoute cfg ch net address cst nowMs writeOk =
          ⟨.ok (some c), cst, true⟩) ∧
      (updateCollectionFn cfg ch net address nowMs cst writeOk = none →
        fetchCollectionFn cst address = none →
        postCollectionRoute cfg ch net address cst nowMs writeOk =
          ⟨.err 500, cst, true⟩) := by
  intro cfg ch net collection tokenId address st cst nowMs writeOk
  refine ⟨?_, ?_, ?_, ?_, ?_, ?_, ?_, ?_, ?_, ?_, ?_, ?_, ?_, ?_⟩
  · intro c h1 h2
    simp [getTokenRoute, h1, h2]
  · intro st2 h1 h2
    simp [getTokenRoute, h1, h2]
  · intro c h1 h2 h3
    simp [getTokenRoute, h1, h2, h3]
  · intro h1 h2
    simp [getTokenRoute, cachedFreshT, h1, h2]
  · intro st2 h1
    simp [postTokenRoute, h1]
  · intro c h1 h2
    simp [postTokenRoute, h1, h2]
  · intro h1 h2
    simp [postTokenRoute, h1, h2]
  · intro c h1 h2
    simp [getCollectionRoute, h1, h2]
  · intro cst2 h1 h2
    simp [getCollectionRoute, h1, h2]
  · intro c h1 h2 h3
    simp [getCollectionRoute, h1, h2, h3]
  · intro h1 h2
    simp [getCollectionRoute, cachedFreshC, h1, h2]
  · intro cst2 h1
    simp [postCollectionRoute, h1]
  · intro c h1 h2
    simp [postCollectionRoute, h1, h2]
  · intro h1 h2
    simp [postCollectionRoute, h1, h2]

theorem routes_stale_fallback_witness :
    getTokenRoute cfgA chFail netFail "0xAbC".data "7".data stOne 999 false =
      ⟨.ok (some rowStale), stOne, true⟩ ∧
    postTokenRoute cfgA chFail netFail "0xAbC".data "7".data stOne 999 false =
      ⟨.ok (some rowStale), stOne, true⟩ ∧
    getTokenRoute cfgA chFail netFail "0xAbC".data "7".data stEmptyT 999 false =
      ⟨.err 500, stEmptyT, true⟩ ∧
    getCollectionRoute cfgA chFail netFail "0xAbC".data cstOne 999 false =
      ⟨.ok (some collStale), cstOne, true⟩ ∧
    postCollectionRoute cfgA chFail netFail "0xAbC".data cstOne 999 false =
      ⟨.ok (some collStale), cstOne, true⟩ ∧
    postCollectionRoute cfgA chFail netFail "0xAbC".data stEmptyC 999 false =
      ⟨.err 500, stEmptyC, true⟩ :=
  have T := routes_stale_fallback cfgA chFail netFail "0xAbC".data "7".data "0xAbC".data
    stOne cstOne 999 false
  have TE := routes_stale_fallback cfgA chFail netFail "0xAbC".data "7".data "0xAbC".data
    stEmptyT stEmptyC 999 false
  ⟨T.2.2.1 rowStale rfl rfl rfl,
   T.2.2.2.2.2.1 rowStale rfl rfl,
   TE.2.2.2.1 rfl rfl,
   T.2.2.2.2.2.2.2.2.2.1 collStale rfl rfl rfl,
   T.2.2.2.2.2.2.2.2.2.2.2.2.1 collStale rfl rfl,
   TE.2.2.2.2.2.2.2.2.2.2.2.2.2 rfl rfl⟩
